import Mathlib

/-!
# cmd/03-custom-tools/weather.go

A shallow embedding of the `getWeather` tool callback and of the part of Go's
`fmt` formatting it relies on.

Go strings are finite byte sequences (not necessarily valid UTF-8), so they are
modelled as lists of bytes; the string literals of the source file are their
UTF-8 encodings.  The console (`os.Stdout`) is an explicit byte log, and the
function runs over a state made of that log and its parameter record.
-/

namespace Weather

/-- Go `string`: an immutable sequence of bytes. -/
abbrev GoString := List UInt8

/-- The value of a Go string literal: the UTF-8 encoding of its characters
(Go source text is UTF-8; `\n` denotes the byte 10 in both languages). -/
def lit (s : String) : GoString :=
  s.data.flatMap String.utf8EncodeChar

/-- Go `error`: `none` is the `nil` error, `some msg` a non-nil error whose
`Error()` text is `msg`. -/
abbrev error := Option GoString

/-- The argument record.

    type getWeatherArgs struct {
        City string
    }
-/
structure getWeatherArgs where
  City : GoString
deriving DecidableEq, Repr

/-- The state the function body runs over: the bytes written to the console so
far and the callee's copy of the parameter record `args`. -/
structure State where
  stdout : GoString
  args : getWeatherArgs
deriving DecidableEq, Repr

/-- The byte `%`, which introduces a formatting directive. -/
def percentByte : UInt8 := 37

/-- The byte `s`, the verb that prints a string operand as it is. -/
def verbS : UInt8 := 115

/-- The formatting loop of Go's `fmt` (`doPrintf`) on string operands,
restricted to the directives this program uses.

The format is scanned byte by byte.  Bytes other than `%` are copied to the
output.  `%s` takes the next operand and writes its bytes unchanged (no width
or precision is set, so nothing is padded or truncated, and the operand is not
scanned for directives).  `%%` writes a single `%` and takes no operand.

Everything else (flags, width, precision, argument indexes, other verbs, a
missing operand, a trailing `%`, operands left over at the end of the format)
is outside the modelled fragment and yields `none`. -/
def doPrintf : GoString → List GoString → Option GoString
  | [], [] => some []
  | [], _ :: _ => none
  | c :: format, a =>
    if c ≠ percentByte then
      (doPrintf format a).map (c :: ·)
    else
      match format, a with
      | verb :: rest, [] =>
        if verb = percentByte then (doPrintf rest []).map (percentByte :: ·)
        else none
      | verb :: rest, v :: a1 =>
        if verb = verbS then (doPrintf rest a1).map (v ++ ·)
        else if verb = percentByte then (doPrintf rest (v :: a1)).map (percentByte :: ·)
        else none
      | [], _ => none

/-- `fmt.Sprintf(format, a...)`: the formatted bytes as a new string. -/
def Sprintf (format : GoString) (a : List GoString) : Option GoString :=
  doPrintf format a

/-- `fmt.Printf(format, a...)`: the formatted bytes are written to standard
output, here appended to the console log.  The write is taken to succeed; the
source discards the byte count and error that `Printf` returns. -/
def Printf (format : GoString) (a : List GoString) (σ : State) : Option State :=
  (doPrintf format a).map fun out => { σ with stdout := σ.stdout ++ out }

/-- The tool callback.

    func getWeather(ctx tool.Context, args getWeatherArgs) (string, error) {
        fmt.Printf("[Tool] Getting weather for %s...\n", args.City)
        return fmt.Sprintf("The weather in %s is Sunny, 25°C", args.City), nil
    }

`tool.Context` is an interface of the host framework; the body never uses
`ctx`, so its type is a parameter.  `stdout` is the console log at the time of
the call.  The result is the returned pair together with the state at return;
`none` would mean that a format left the modelled fragment of `fmt`. -/
def getWeather {Context : Type} (_ctx : Context) (args : getWeatherArgs)
    (stdout : GoString) : Option ((GoString × error) × State) := do
  let σ0 : State := { stdout := stdout, args := args }
  let σ1 ← Printf (lit "[Tool] Getting weather for %s...\n") [σ0.args.City] σ0
  let s ← Sprintf (lit "The weather in %s is Sunny, 25°C") [σ1.args.City]
  pure ((s, none), σ1)

/-- The console log after a sequence of invocations, run one after the other
starting from the log `stdout`. -/
def invokeAll {Context : Type} :
    List (Context × getWeatherArgs) → GoString → Option GoString
  | [], stdout => some stdout
  | (ctx, args) :: calls, stdout =>
    (getWeather ctx args stdout).bind fun r => invokeAll calls r.2.stdout

/-- The pair `(string, error)` an invocation returns. -/
def returned (r : Option ((GoString × error) × State)) : Option (GoString × error) :=
  r.map fun x => x.1

/-- The first component of the returned pair: the result string. -/
def resultString (r : Option ((GoString × error) × State)) : Option GoString :=
  r.map fun x => x.1.1

/-! ## The formatting loop -/

theorem doPrintf_cons_plain (c : UInt8) (format : GoString) (a : List GoString)
    (h : c ≠ percentByte) :
    doPrintf (c :: format) a = (doPrintf format a).map (c :: ·) := by
  conv_lhs => unfold doPrintf
  simp [h]

theorem doPrintf_verbS (format : GoString) (v : GoString) (a : List GoString) :
    doPrintf (percentByte :: verbS :: format) (v :: a) = (doPrintf format a).map (v ++ ·) := by
  conv_lhs => unfold doPrintf
  simp

/-- A format without `%` and without operands is copied to the output. -/
theorem doPrintf_plain (format : GoString) (h : percentByte ∉ format) :
    doPrintf format [] = some format := by
  induction format with
  | nil => simp [doPrintf]
  | cons c format ih =>
    have hc : c ≠ percentByte := fun e => h (by simp [e])
    have hf : percentByte ∉ format := fun m => h (List.mem_cons_of_mem _ m)
    rw [doPrintf_cons_plain c format [] hc, ih hf]
    rfl

/-- A format with a single `%s` directive between two runs of plain bytes puts
the operand, byte for byte, between those runs. -/
theorem doPrintf_one_verbS (pre post v : GoString)
    (hpre : percentByte ∉ pre) (hpost : percentByte ∉ post) :
    doPrintf (pre ++ percentByte :: verbS :: post) [v] = some (pre ++ v ++ post) := by
  induction pre with
  | nil =>
    rw [List.nil_append, doPrintf_verbS, doPrintf_plain post hpost]
    rfl
  | cons c pre ih =>
    have hc : c ≠ percentByte := fun e => hpre (by simp [e])
    have hp : percentByte ∉ pre := fun m => hpre (List.mem_cons_of_mem _ m)
    rw [List.cons_append, doPrintf_cons_plain c _ _ hc, ih hp]
    rfl

/-! ## The two formats of `getWeather` -/

theorem logFormat_eq :
    lit "[Tool] Getting weather for %s...\n" =
      lit "[Tool] Getting weather for " ++ percentByte :: verbS :: lit "...\n" := by
  decide

theorem resultFormat_eq :
    lit "The weather in %s is Sunny, 25°C" =
      lit "The weather in " ++ percentByte :: verbS :: lit " is Sunny, 25°C" := by
  decide

/-- The complete behaviour of one invocation. -/
theorem getWeather_eq {Context : Type} (ctx : Context) (args : getWeatherArgs)
    (stdout : GoString) :
    getWeather ctx args stdout =
      some ((lit "The weather in " ++ args.City ++ lit " is Sunny, 25°C", none),
        { stdout := stdout ++ (lit "[Tool] Getting weather for " ++ args.City ++ lit "...\n"),
          args := args }) := by
  have h1 := doPrintf_one_verbS (lit "[Tool] Getting weather for ") (lit "...\n") args.City
    (by decide) (by decide)
  have h2 := doPrintf_one_verbS (lit "The weather in ") (lit " is Sunny, 25°C") args.City
    (by decide) (by decide)
  simp only [getWeather, Printf, Sprintf, logFormat_eq, resultFormat_eq, h1, h2]
  rfl

theorem returned_getWeather {Context : Type} (ctx : Context) (args : getWeatherArgs)
    (stdout : GoString) :
    returned (getWeather ctx args stdout) =
      some (lit "The weather in " ++ args.City ++ lit " is Sunny, 25°C", none) := by
  rw [getWeather_eq]
  rfl

theorem resultString_getWeather {Context : Type} (ctx : Context) (args : getWeatherArgs)
    (stdout : GoString) :
    resultString (getWeather ctx args stdout) =
      some (lit "The weather in " ++ args.City ++ lit " is Sunny, 25°C") := by
  rw [getWeather_eq]
  rfl

/-- Any sequence of invocations runs to completion and leaves some console log. -/
theorem invokeAll_total {Context : Type} (calls : List (Context × getWeatherArgs)) :
    ∀ stdout : GoString, ∃ log, invokeAll calls stdout = some log := by
  induction calls with
  | nil => intro stdout; exact ⟨stdout, rfl⟩
  | cons call calls ih =>
    intro stdout
    obtain ⟨ctx, args⟩ := call
    obtain ⟨log, hlog⟩ :=
      ih (stdout ++ (lit "[Tool] Getting weather for " ++ args.City ++ lit "...\n"))
    refine ⟨log, ?_⟩
    rw [invokeAll, getWeather_eq]
    exact hlog

/-! ## Evaluation on concrete inputs -/

theorem getWeather_Paris :
    getWeather () ⟨lit "Paris"⟩ [] =
      some ((lit "The weather in Paris is Sunny, 25°C", none),
        ⟨lit "[Tool] Getting weather for Paris...\n", ⟨lit "Paris"⟩⟩) := by
  decide

theorem getWeather_city_with_directive :
    getWeather () ⟨lit "50%s\n%d"⟩ (lit "earlier output\n") =
      some ((lit "The weather in 50%s\n%d is Sunny, 25°C", none),
        ⟨lit "earlier output\n[Tool] Getting weather for 50%s\n%d...\n", ⟨lit "50%s\n%d"⟩⟩) := by
  decide

theorem doPrintf_percent_percent :
    doPrintf (lit "100%% of %s") [lit "a%sb"] = some (lit "100% of a%sb") := by
  decide

theorem template_lengths :
    (lit "The weather in ").length = 15 ∧ (lit " is Sunny, 25°C").length = 16 := by
  decide

/-! ## The claims -/

/-- C1: for every city, every context and every console log, `getWeather`
returns exactly the string "The weather in " ++ city ++ " is Sunny, 25°C"
together with the nil error; for the city "Paris" the returned pair is exactly
"The weather in Paris is Sunny, 25°C" and nil. -/
theorem getWeather_returns_template {Context : Type} (ctx : Context)
    (city stdout : GoString) :
    returned (getWeather ctx ⟨city⟩ stdout) =
        some (lit "The weather in " ++ city ++ lit " is Sunny, 25°C", none) ∧
      returned (getWeather ctx ⟨lit "Paris"⟩ stdout) =
        some (lit "The weather in Paris is Sunny, 25°C", none) := by
  refine ⟨returned_getWeather ctx ⟨city⟩ stdout, ?_⟩
  rw [returned_getWeather]
  decide

/-- C2: `getWeather` always succeeds.  For every context, every argument record
(any byte string as City) and every console log the call returns a pair whose
error is nil, and on no input does it return a non-nil error. -/
theorem getWeather_error_nil {Context : Type} (ctx : Context) (args : getWeatherArgs)
    (stdout : GoString) :
    (∃ s σ, getWeather ctx args stdout = some ((s, none), σ)) ∧
      ¬ ∃ s e σ, getWeather ctx args stdout = some ((s, some e), σ) := by
  constructor
  · exact ⟨_, _, getWeather_eq ctx args stdout⟩
  · rintro ⟨s, e, σ, h⟩
    rw [getWeather_eq] at h
    simp at h

/-- C3: the empty city is not rejected.  For City = "" the call returns the
template with an empty city, "The weather in  is Sunny, 25°C" (two consecutive
spaces), with the nil error. -/
theorem getWeather_empty_city {Context : Type} (ctx : Context) (stdout : GoString) :
    returned (getWeather ctx ⟨lit ""⟩ stdout) =
      some (lit "The weather in  is Sunny, 25°C", none) := by
  rw [returned_getWeather]
  decide

/-- C4: with the console as an explicit log, an invocation with city `city`
appends exactly the diagnostic line "[Tool] Getting weather for " ++ city ++
"...\n" to the log, and the write comes first: the `Printf` step yields a state
`σ1` that already holds the line, the result string is then formatted from the
City read in `σ1`, and `σ1` is the state at return. -/
theorem getWeather_logs_before_result {Context : Type} (ctx : Context)
    (city stdout : GoString) :
    ∃ σ1 s,
      Printf (lit "[Tool] Getting weather for %s...\n") [city] ⟨stdout, ⟨city⟩⟩ = some σ1 ∧
      σ1.stdout = stdout ++ (lit "[Tool] Getting weather for " ++ city ++ lit "...\n") ∧
      Sprintf (lit "The weather in %s is Sunny, 25°C") [σ1.args.City] = some s ∧
      getWeather ctx ⟨city⟩ stdout = some ((s, none), σ1) := by
  have h1 := doPrintf_one_verbS (lit "[Tool] Getting weather for ") (lit "...\n") city
    (by decide) (by decide)
  have h2 := doPrintf_one_verbS (lit "The weather in ") (lit " is Sunny, 25°C") city
    (by decide) (by decide)
  refine ⟨⟨stdout ++ (lit "[Tool] Getting weather for " ++ city ++ lit "...\n"), ⟨city⟩⟩,
    lit "The weather in " ++ city ++ lit " is Sunny, 25°C", ?_, rfl, ?_, ?_⟩
  · simp only [Printf, logFormat_eq, h1]
    rfl
  · simp only [Sprintf, resultFormat_eq, h2]
  · exact getWeather_eq ctx ⟨city⟩ stdout

/-- C5: over the state made of the console log and the argument record, an
invocation changes nothing except appending the diagnostic line.  The call
returns a pair and a final state; the earlier log is a prefix of the new log,
the new log is the earlier log followed by the diagnostic line, and the
argument record is unchanged. -/
theorem getWeather_frame {Context : Type} (ctx : Context) (args : getWeatherArgs)
    (stdout : GoString) :
    ∃ ret σ,
      getWeather ctx args stdout = some (ret, σ) ∧
      stdout <+: σ.stdout ∧
      σ.stdout = stdout ++ (lit "[Tool] Getting weather for " ++ args.City ++ lit "...\n") ∧
      σ.args = args := by
  refine ⟨_, _, getWeather_eq ctx args stdout, ?_, rfl, rfl⟩
  exact ⟨_, rfl⟩

/-- C6: invocation is stateless.  Take two runs whose argument records have
equal City, with any two contexts, any two earlier call histories and any two
initial logs.  Both histories complete, and the two invocations return the same
pair `ret` and append the same text `line` to their respective logs. -/
theorem getWeather_stateless {Context : Type} (ctx1 ctx2 : Context)
    (args1 args2 : getWeatherArgs) (history1 history2 : List (Context × getWeatherArgs))
    (stdout1 stdout2 : GoString) (h : args1.City = args2.City) :
    ∃ log1 log2 ret line,
      invokeAll history1 stdout1 = some log1 ∧
      invokeAll history2 stdout2 = some log2 ∧
      getWeather ctx1 args1 log1 = some (ret, ⟨log1 ++ line, args1⟩) ∧
      getWeather ctx2 args2 log2 = some (ret, ⟨log2 ++ line, args2⟩) := by
  obtain ⟨log1, h1⟩ := invokeAll_total history1 stdout1
  obtain ⟨log2, h2⟩ := invokeAll_total history2 stdout2
  refine ⟨log1, log2, _, _, h1, h2, getWeather_eq ctx1 args1 log1, ?_⟩
  rw [getWeather_eq ctx2 args2 log2, h]

theorem getWeather_stateless_witness :
    (⟨lit "Paris"⟩ : getWeatherArgs).City = (⟨lit "Paris"⟩ : getWeatherArgs).City ∧
    ∃ log1 log2 ret line,
      invokeAll ([] : List (Nat × getWeatherArgs)) [] = some log1 ∧
      invokeAll [((1 : Nat), (⟨lit "Seoul"⟩ : getWeatherArgs))] (lit "boot\n") = some log2 ∧
      getWeather (0 : Nat) ⟨lit "Paris"⟩ log1 = some (ret, ⟨log1 ++ line, ⟨lit "Paris"⟩⟩) ∧
      getWeather (2 : Nat) ⟨lit "Paris"⟩ log2 = some (ret, ⟨log2 ++ line, ⟨lit "Paris"⟩⟩) :=
  ⟨rfl, getWeather_stateless (0 : Nat) 2 ⟨lit "Paris"⟩ ⟨lit "Paris"⟩ []
    [(1, ⟨lit "Seoul"⟩)] [] (lit "boot\n") rfl⟩

/-- C7: the city is embedded verbatim and the result is injective in it.  For
every city the call returns a string from which the city is recovered by
dropping the leading "The weather in " and the trailing " is Sunny, 25°C"; and
whenever two invocations return the same string, their cities are equal.  Both
hold for every byte string, also one that contains the template texts. -/
theorem getWeather_city_recoverable {Context : Type} :
    (∀ (ctx : Context) (city stdout : GoString), ∃ s,
        resultString (getWeather ctx ⟨city⟩ stdout) = some s ∧
        (s.drop (lit "The weather in ").length).take
            (s.length - (lit "The weather in ").length - (lit " is Sunny, 25°C").length) =
          city) ∧
      ∀ (ctx1 ctx2 : Context) (c1 c2 stdout1 stdout2 : GoString),
        resultString (getWeather ctx1 ⟨c1⟩ stdout1) =
            resultString (getWeather ctx2 ⟨c2⟩ stdout2) →
          c1 = c2 := by
  constructor
  · intro ctx city stdout
    refine ⟨_, resultString_getWeather ctx ⟨city⟩ stdout, ?_⟩
    simp [List.append_assoc]
  · intro ctx1 ctx2 c1 c2 stdout1 stdout2 h
    rw [resultString_getWeather, resultString_getWeather] at h
    have h1 := Option.some.inj h
    simp only [List.append_assoc] at h1
    exact List.append_cancel_right (List.append_cancel_left h1)

theorem getWeather_city_recoverable_witness :
    resultString (getWeather () ⟨lit " is Sunny, 25°C"⟩ []) =
        resultString (getWeather () ⟨lit " is Sunny, 25°C"⟩ (lit "x")) ∧
      lit " is Sunny, 25°C" = lit " is Sunny, 25°C" ∧
      ∃ s, resultString (getWeather () ⟨lit "The weather in "⟩ []) = some s ∧
        (s.drop (lit "The weather in ").length).take
            (s.length - (lit "The weather in ").length - (lit " is Sunny, 25°C").length) =
          lit "The weather in " :=
  ⟨by decide,
    getWeather_city_recoverable.2 () () (lit " is Sunny, 25°C") (lit " is Sunny, 25°C")
      [] (lit "x") (by decide),
    getWeather_city_recoverable.1 () (lit "The weather in ") []⟩

/-- C8: the placeholder condition and temperature are fixed.  For every city
the returned string begins with "The weather in ", ends with " is Sunny, 25°C",
and its length in bytes is the length of the city plus the constant length of
the template, 15 + 16 bytes. -/
theorem getWeather_template_shape {Context : Type} (ctx : Context)
    (city stdout : GoString) :
    ∃ s, resultString (getWeather ctx ⟨city⟩ stdout) = some s ∧
      lit "The weather in " <+: s ∧
      lit " is Sunny, 25°C" <:+ s ∧
      s.length =
        city.length + ((lit "The weather in ").length + (lit " is Sunny, 25°C").length) ∧
      s.length = city.length + 31 := by
  refine ⟨_, resultString_getWeather ctx ⟨city⟩ stdout, ?_, ?_, ?_, ?_⟩
  · exact ⟨city ++ lit " is Sunny, 25°C", by simp [List.append_assoc]⟩
  · exact ⟨lit "The weather in " ++ city, rfl⟩
  · simp only [List.length_append]
    omega
  · simp only [List.length_append, template_lengths.1, template_lengths.2]
    omega

end Weather
